import Mathlib

set_option autoImplicit false

namespace Weisswurst

/-!
Shallow embedding of the Weisswurst Einstand repository: the hosted-database
schema with its stored procedures and row-level-security policies (SQL in the
README), the local app state and its handlers (App.tsx, ColleagueList.tsx),
the summary/total computations (Summary components, the session-page totals),
the local-storage persistence hook, the German number parser, and the 3D
scene error boundary.

Machine numbers are modelled as Int (counters) and as the rationals (prices);
SQL timestamps are opaque Nat stamps.
-/

/-- Session status column: CHECK (status IN ('OPEN', 'CLOSED')). -/
inductive SessionStatus where
  | OPEN
  | CLOSED
deriving DecidableEq, Repr

/-- Session mode column: CHECK (mode IN ('INVITE', 'SPLIT')). -/
inductive DbMode where
  | INVITE
  | SPLIT
deriving DecidableEq, Repr

/-- One row of einstand_sessions (README schema). created_at is omitted:
no statement here mentions it and no procedure reads or writes it. -/
structure SessionRow where
  id : Nat
  title : Option String
  mode : DbMode
  price_wurst : Option ℚ
  price_pretzel : Option ℚ
  status : SessionStatus
  admin_secret : String
  deleted_at : Option Nat
deriving DecidableEq, Repr

/-- One SQL UPDATE ... SET f WHERE p on the sessions table: every matching
row is rewritten by f, and ROW_COUNT (the number of matched rows) is
reported alongside the new table. -/
def sqlUpdate (tbl : List SessionRow) (f : SessionRow → SessionRow)
    (p : SessionRow → Bool) : List SessionRow × Nat :=
  (tbl.map fun r => if p r then f r else r, (tbl.filter p).length)

/-- WHERE clause of close_session: id, admin_secret, deleted_at IS NULL,
status = OPEN. -/
def closePred (sid : Nat) (secret : String) (r : SessionRow) : Bool :=
  decide (r.id = sid ∧ r.admin_secret = secret ∧ r.deleted_at = none ∧
    r.status = SessionStatus.OPEN)

/-- Stored procedure close_session from the README SQL: UPDATE ... SET
status = CLOSED WHERE id AND admin_secret AND not deleted AND OPEN;
returns ROW_COUNT > 0. -/
def close_session (tbl : List SessionRow) (sid : Nat) (secret : String) :
    List SessionRow × Bool :=
  let u := sqlUpdate tbl (fun r => { r with status := SessionStatus.CLOSED })
    (closePred sid secret)
  (u.1, decide (0 < u.2))

/-- WHERE clause of delete_session: id, admin_secret, deleted_at IS NULL. -/
def deletePred (sid : Nat) (secret : String) (r : SessionRow) : Bool :=
  decide (r.id = sid ∧ r.admin_secret = secret ∧ r.deleted_at = none)

/-- Stored procedure delete_session from the README SQL (soft delete):
UPDATE ... SET deleted_at = now() WHERE id AND admin_secret AND not
deleted; returns ROW_COUNT > 0. The now() timestamp arrives as `now`. -/
def delete_session (tbl : List SessionRow) (sid : Nat) (secret : String)
    (now : Nat) : List SessionRow × Bool :=
  let u := sqlUpdate tbl (fun r => { r with deleted_at := some now })
    (deletePred sid secret)
  (u.1, decide (0 < u.2))

/-- WHERE clause of reopen_session: id, admin_secret, deleted_at IS NULL,
status = CLOSED. -/
def reopenPred (sid : Nat) (secret : String) (r : SessionRow) : Bool :=
  decide (r.id = sid ∧ r.admin_secret = secret ∧ r.deleted_at = none ∧
    r.status = SessionStatus.CLOSED)

/-- Stored procedure reopen_session from the README SQL: UPDATE ... SET
status = OPEN WHERE id AND admin_secret AND not deleted AND CLOSED;
returns ROW_COUNT > 0. -/
def reopen_session (tbl : List SessionRow) (sid : Nat) (secret : String) :
    List SessionRow × Bool :=
  let u := sqlUpdate tbl (fun r => { r with status := SessionStatus.OPEN })
    (reopenPred sid secret)
  (u.1, decide (0 < u.2))

/-- RLS policy entries_insert_open_session: the WITH CHECK condition, an
EXISTS over einstand_sessions asking for a session with the given id
that is OPEN and not deleted. -/
def entries_insert_open_session (tbl : List SessionRow) (sid : Nat) : Bool :=
  tbl.any fun s => decide (s.id = sid ∧ s.status = SessionStatus.OPEN ∧
    s.deleted_at = none)

/-- RLS policy entries_update_open_session: USING and WITH CHECK are the
same EXISTS condition as the insert policy. -/
def entries_update_open_session (tbl : List SessionRow) (sid : Nat) : Bool :=
  tbl.any fun s => decide (s.id = sid ∧ s.status = SessionStatus.OPEN ∧
    s.deleted_at = none)

/-- RLS policy entries_delete_open_session: the USING condition, again the
same EXISTS over open, non-deleted sessions. -/
def entries_delete_open_session (tbl : List SessionRow) (sid : Nat) : Bool :=
  tbl.any fun s => decide (s.id = sid ∧ s.status = SessionStatus.OPEN ∧
    s.deleted_at = none)

/-- App cost-sharing mode from types.ts: 'invite' or 'split'. -/
inductive AppMode where
  | invite
  | split
deriving DecidableEq, Repr

/-- Sort mode from types.ts: 'alphabetical' or 'count'. -/
inductive SortMode where
  | alphabetical
  | count
deriving DecidableEq, Repr

/-- Colleague record from types.ts. Counters are JS numbers holding
integers; they are modelled as Int so that non-negativity is a statement
about the handlers, not about the type. -/
structure Colleague where
  id : String
  name : String
  count : Int
  brezelCount : Int
deriving DecidableEq, Repr

/-- AppState from types.ts. -/
structure AppState where
  colleagues : List Colleague
  activeColleagueId : Option String
  mode : AppMode
  pricePerWurst : ℚ
  pricePerBrezel : ℚ
  sortMode : SortMode
deriving DecidableEq, Repr

/-- The JS idiom (n || 0) on an integer-valued number: 0 stays 0 (and in JS
a NaN or undefined would become 0); on Int it is the identity, written out
to mirror the source. -/
def jsOr0 (n : Int) : Int :=
  if n = 0 then 0 else n

/-- The JS idiom (q || 0) on a price: same as jsOr0 but on the rationals. -/
def jsOr0Q (q : ℚ) : ℚ :=
  if q = 0 then 0 else q

/-- handleDipComplete from App.tsx: nothing happens without a truthy
activeColleagueId (in JS the empty string is falsy too); otherwise the
colleague with the active id gets count + 1. -/
def handleDipComplete (s : AppState) : AppState :=
  match s.activeColleagueId with
  | none => s
  | some i =>
    if i = "" then s
    else { s with colleagues := s.colleagues.map fun c =>
      if c.id = i then { c with count := c.count + 1 } else c }

/-- handleBrezelComplete from App.tsx: the active colleague gets
(brezelCount || 0) + 1. -/
def handleBrezelComplete (s : AppState) : AppState :=
  match s.activeColleagueId with
  | none => s
  | some i =>
    if i = "" then s
    else { s with colleagues := s.colleagues.map fun c =>
      if c.id = i then { c with brezelCount := jsOr0 c.brezelCount + 1 } else c }

/-- handleDecrementWurst from ColleagueList.tsx: Math.max(0, count - 1) on
the matching colleague. -/
def handleDecrementWurst (colleagues : List Colleague) (i : String) :
    List Colleague :=
  colleagues.map fun c =>
    if c.id = i then { c with count := max 0 (c.count - 1) } else c

/-- handleDecrementBrezel from ColleagueList.tsx:
Math.max(0, (brezelCount || 0) - 1) on the matching colleague. -/
def handleDecrementBrezel (colleagues : List Colleague) (i : String) :
    List Colleague :=
  colleagues.map fun c =>
    if c.id = i then { c with brezelCount := max 0 (jsOr0 c.brezelCount - 1) }
    else c

/-- handleReset from ColleagueList.tsx: both counters of the matching
colleague back to 0. -/
def handleReset (colleagues : List Colleague) (i : String) : List Colleague :=
  colleagues.map fun c =>
    if c.id = i then { c with count := 0, brezelCount := 0 } else c

/-- handleResetAll from App.tsx: both counters of every colleague to 0. -/
def handleResetAll (s : AppState) : AppState :=
  { s with colleagues := s.colleagues.map fun c =>
      { c with count := 0, brezelCount := 0 } }

/-- One row of einstand_entries (README schema), as the session page sees
it. Timestamps are omitted: no handler below reads them. -/
structure Entry where
  id : String
  session_id : Nat
  display_name : String
  wurst_count : Int
  pretzel_count : Int
deriving DecidableEq, Repr

/-- handleDecrementWurst from the session page (part_006): look the entry
up; bail out when it is missing or its wurst_count is already <= 0;
otherwise UPDATE ... SET wurst_count = entry.wurst_count - 1 WHERE id. -/
def handleDecrementWurstDb (entries : List Entry) (entryId : String) :
    List Entry :=
  match entries.find? (fun e => decide (e.id = entryId)) with
  | none => entries
  | some entry =>
    if entry.wurst_count ≤ 0 then entries
    else entries.map fun e =>
      if e.id = entryId then { e with wurst_count := entry.wurst_count - 1 }
      else e

/-- handleDecrementBrezel from the session page (part_006): same shape on
pretzel_count. -/
def handleDecrementBrezelDb (entries : List Entry) (entryId : String) :
    List Entry :=
  match entries.find? (fun e => decide (e.id = entryId)) with
  | none => entries
  | some entry =>
    if entry.pretzel_count ≤ 0 then entries
    else entries.map fun e =>
      if e.id = entryId then { e with pretzel_count := entry.pretzel_count - 1 }
      else e

/-- handleDipComplete from the session page (part_006): look the active
entry up; if present, UPDATE ... SET wurst_count = entry.wurst_count + 1
WHERE id. -/
def handleDipCompleteDb (entries : List Entry) (activeEntryId : String) :
    List Entry :=
  match entries.find? (fun e => decide (e.id = activeEntryId)) with
  | none => entries
  | some entry =>
    entries.map fun e =>
      if e.id = activeEntryId then { e with wurst_count := entry.wurst_count + 1 }
      else e

/-- handleBrezelComplete from the session page (part_006): same shape on
pretzel_count. -/
def handleBrezelCompleteDb (entries : List Entry) (activeEntryId : String) :
    List Entry :=
  match entries.find? (fun e => decide (e.id = activeEntryId)) with
  | none => entries
  | some entry =>
    entries.map fun e =>
      if e.id = activeEntryId then
        { e with pretzel_count := entry.pretzel_count + 1 }
      else e

/-- handleReset from the session page (part_006): if the entry exists,
UPDATE ... SET wurst_count = 0, pretzel_count = 0 WHERE id. -/
def handleResetDb (entries : List Entry) (entryId : String) : List Entry :=
  match entries.find? (fun e => decide (e.id = entryId)) with
  | none => entries
  | some _ =>
    entries.map fun e =>
      if e.id = entryId then { e with wurst_count := 0, pretzel_count := 0 }
      else e

/-- Math.ceil(a / b) on integer a with positive literal b, as JS computes
it on exact values. -/
def jsCeilDiv (a b : Int) : Int :=
  -((-a).fdiv b)

/-- Math.floor(a / b) on integer a with positive literal b. -/
def jsFloorDiv (a b : Int) : Int :=
  a.fdiv b

/-- totalWurst from the Summary components: reduce((sum, c) => sum + c.count, 0). -/
def totalWurst (colleagues : List Colleague) : Int :=
  colleagues.foldl (fun sum c => sum + c.count) 0

/-- totalBrezeln from the Summary components:
reduce((sum, c) => sum + (c.brezelCount || 0), 0). -/
def totalBrezeln (colleagues : List Colleague) : Int :=
  colleagues.foldl (fun sum c => sum + jsOr0 c.brezelCount) 0

/-- The mustard need from the part_000 Summary:
senfGramsNeeded = Math.ceil(totalWurst / 2) * 45. -/
def senfGramsNeeded (tw : Int) : Int :=
  jsCeilDiv tw 2 * 45

/-- The jar choice from the part_000 Summary: fill with 335ml jars via
Math.floor, then cover any positive remainder (JS %) with
Math.ceil(remainder / 200) 200ml jars. Returns (jars335, jars200). -/
def senfJars (tw : Int) : Int × Int :=
  let grams := senfGramsNeeded tw
  let j335 := jsFloorDiv grams 335
  let r := grams.tmod 335
  let j200 := if 0 < r then jsCeilDiv r 200 else 0
  (j335, j200)

/-- senfPrice from the part_000 Summary: jars335 * 2.50 + jars200 * 2.00. -/
def senfPrice (tw : Int) : ℚ :=
  ((senfJars tw).1 : ℚ) * (5 / 2) + ((senfJars tw).2 : ℚ) * 2

/-- totalPrice in the Summary of utils/format.ts (the local app variant):
(totalWurst * (pricePerWurst || 0)) + (totalBrezeln * (pricePerBrezel || 0)). -/
def summaryTotalPrice (colleagues : List Colleague) (pW pB : ℚ) : ℚ :=
  (totalWurst colleagues : ℚ) * jsOr0Q pW +
    (totalBrezeln colleagues : ℚ) * jsOr0Q pB

/-- totalPrice in the part_000 Summary: the same base, plus senfPrice when
the mode is split. -/
def summaryTotalPricePart000 (colleagues : List Colleague) (mode : AppMode)
    (pW pB : ℚ) : ℚ :=
  (totalWurst colleagues : ℚ) * jsOr0Q pW +
    (totalBrezeln colleagues : ℚ) * jsOr0Q pB +
    (if mode = AppMode.split then senfPrice (totalWurst colleagues) else 0)

/-- What the format.ts Summary card actually shows: both counters always,
and a cost figure only when mode === 'split'. -/
structure SummaryView where
  shownWurst : Int
  shownBrezeln : Int
  shownCost : Option ℚ
deriving DecidableEq, Repr

/-- The rendered Summary of utils/format.ts: the Gesamtkosten row exists
only under the mode === 'split' guard. -/
def renderSummary (colleagues : List Colleague) (mode : AppMode)
    (pW pB : ℚ) : SummaryView :=
  { shownWurst := totalWurst colleagues
    shownBrezeln := totalBrezeln colleagues
    shownCost :=
      if mode = AppMode.split then some (summaryTotalPrice colleagues pW pB)
      else none }

/-- The totals memo of the session page (part_006). -/
structure Totals where
  totalWurst : Int
  totalPretzel : Int
  totalCost : ℚ
deriving DecidableEq, Repr

/-- totals from part_006: entry count sums, and a cost that is the
count-times-price sum when mode === 'SPLIT' and 0 otherwise; a missing
price counts as 0 via (price || 0). -/
def totalsDb (entries : List Entry) (mode : DbMode)
    (price_wurst price_pretzel : Option ℚ) : Totals :=
  let tw := entries.foldl (fun sum e => sum + e.wurst_count) 0
  let tp := entries.foldl (fun sum e => sum + e.pretzel_count) 0
  { totalWurst := tw
    totalPretzel := tp
    totalCost :=
      if mode = DbMode.SPLIT then
        (tw : ℚ) * price_wurst.getD 0 + (tp : ℚ) * price_pretzel.getD 0
      else 0 }

/-- Modelled from the spec: the split-mode total as the glossary words it,
a sum over the entries of wurst count times wurst price plus pretzel count
times pretzel price, over colleague records. -/
def specSplitTotalColleagues (colleagues : List Colleague) (pW pB : ℚ) : ℚ :=
  (colleagues.map fun c => (c.count : ℚ) * pW + (c.brezelCount : ℚ) * pB).sum

/-- Modelled from the spec: the same per-item cost sum over session
entries. -/
def specSplitTotalEntries (entries : List Entry) (pW pB : ℚ) : ℚ :=
  (entries.map fun e =>
    (e.wurst_count : ℚ) * pW + (e.pretzel_count : ℚ) * pB).sum

/-- Replace the first comma by a dot, as the JS
input.replace(',', '.') with a string pattern does. -/
def replaceFirstCommaAux : List Char → List Char
  | [] => []
  | c :: rest => if c = ',' then '.' :: rest else c :: replaceFirstCommaAux rest

/-- String wrapper for replaceFirstCommaAux. -/
def replaceFirstComma (s : String) : String :=
  String.mk (replaceFirstCommaAux s.data)

/-- Whitespace skipped by parseFloat before the number. -/
def isWs (c : Char) : Bool :=
  c == ' ' || c == '\t' || c == '\n' || c == '\r'

/-- Numeric value of a decimal digit list, most significant first. -/
def natOfDigits (ds : List Char) : Nat :=
  ds.foldl (fun a c => 10 * a + (c.toNat - 48)) 0

/-- Exponent digits after e/E with an optional sign; an incomplete
exponent (no digits) contributes 0, matching how parseFloat backtracks to
the longest valid literal. -/
def readExponentDigits (l : List Char) : Int :=
  match l with
  | '+' :: rest => (natOfDigits (rest.takeWhile Char.isDigit) : Int)
  | '-' :: rest => -(natOfDigits (rest.takeWhile Char.isDigit) : Int)
  | rest => (natOfDigits (rest.takeWhile Char.isDigit) : Int)

/-- The e/E exponent part of a float literal, 0 when absent. -/
def readExponent (l : List Char) : Int :=
  match l with
  | 'e' :: rest => readExponentDigits rest
  | 'E' :: rest => readExponentDigits rest
  | _ => 0

/-- Ten to a natural power, as an exact rational. -/
def tenPowNat : Nat → ℚ
  | 0 => 1
  | n + 1 => 10 * tenPowNat n

/-- Ten to an integer power, as an exact rational. -/
def tenPow (e : Int) : ℚ :=
  if 0 ≤ e then tenPowNat e.toNat else (tenPowNat (-e).toNat)⁻¹

/-- The JS parseFloat builtin on the exact value level: skip leading
whitespace, read an optional sign, integer digits, an optional fraction,
an optional exponent; the longest valid prefix wins and no digits at all
give NaN, modelled as none. (The special Infinity literals play no role
for this app and stay outside the model.) -/
def jsParseFloat (s : String) : Option ℚ :=
  let l := s.data.dropWhile isWs
  let sgn : ℚ :=
    match l with
    | '-' :: _ => -1
    | _ => 1
  let l1 : List Char :=
    match l with
    | '+' :: rest => rest
    | '-' :: rest => rest
    | rest => rest
  let ip := l1.takeWhile Char.isDigit
  let l2 := l1.dropWhile Char.isDigit
  let fp : List Char :=
    match l2 with
    | '.' :: rest => rest.takeWhile Char.isDigit
    | _ => []
  let l3 : List Char :=
    match l2 with
    | '.' :: rest => rest.dropWhile Char.isDigit
    | _ => l2
  if ip.isEmpty && fp.isEmpty then none
  else
    some (sgn * ((natOfDigits ip : ℚ) + (natOfDigits fp : ℚ) / tenPowNat fp.length)
      * tenPow (readExponent l3))

/-- parseGermanNumber from utils/format.ts: normalize the first comma to a
dot, parseFloat, and map NaN to 0. -/
def parseGermanNumber (input : String) : ℚ :=
  match jsParseFloat (replaceFirstComma input) with
  | none => 0
  | some q => q

/-- The object JSON.parse hands back from local storage: any subset of the
AppState fields may be present (an old stored state misses newer fields).
A present activeColleagueId can itself be the stored null. -/
structure StoredAppState where
  colleagues : Option (List Colleague)
  activeColleagueId : Option (Option String)
  mode : Option AppMode
  pricePerWurst : Option ℚ
  pricePerBrezel : Option ℚ
  sortMode : Option SortMode
deriving DecidableEq, Repr

/-- JSON.stringify of an AppState at the object level: every field of the
state is written, so every field is present after JSON.parse. -/
def stringifyState (s : AppState) : StoredAppState :=
  { colleagues := some s.colleagues
    activeColleagueId := some s.activeColleagueId
    mode := some s.mode
    pricePerWurst := some s.pricePerWurst
    pricePerBrezel := some s.pricePerBrezel
    sortMode := some s.sortMode }

/-- The spread merge of useLocalStorageState: fields present in the parsed
object override the initial value, missing fields fall back to it. -/
def spreadMerge (init : AppState) (p : StoredAppState) : AppState :=
  { colleagues := p.colleagues.getD init.colleagues
    activeColleagueId := p.activeColleagueId.getD init.activeColleagueId
    mode := p.mode.getD init.mode
    pricePerWurst := p.pricePerWurst.getD init.pricePerWurst
    pricePerBrezel := p.pricePerBrezel.getD init.pricePerBrezel
    sortMode := p.sortMode.getD init.sortMode }

/-- The lazy initializer of useLocalStorageState: nothing stored gives the
initial value; a stored object is merged over the initial value. -/
def loadState (init : AppState) (stored : Option StoredAppState) : AppState :=
  match stored with
  | none => init
  | some p => spreadMerge init p

/-- SceneErrorBoundary component state; the constructor starts with
hasError false and no error. -/
structure SceneState where
  hasError : Bool
  error : Option String
deriving DecidableEq, Repr

/-- The initial boundary state set in the constructor. -/
def initialSceneState : SceneState :=
  { hasError := false, error := none }

/-- static getDerivedStateFromError of SceneErrorBoundary: any raised
error becomes hasError true with the error recorded. -/
def getDerivedStateFromError (e : String) : SceneState :=
  { hasError := true, error := some e }

/-- What one render of the boundary can output. -/
inductive RenderOut (α : Type) where
  | fallbackCustom (f : α)
  | fallbackDefault
  | children
deriving DecidableEq, Repr

/-- render of SceneErrorBoundary: with hasError it returns the supplied
fallback if one was given and otherwise the built-in fallback UI; without
hasError it returns the children. -/
def sceneRender {α : Type} (st : SceneState) (fallback : Option α) :
    RenderOut α :=
  if st.hasError then
    match fallback with
    | some f => RenderOut.fallbackCustom f
    | none => RenderOut.fallbackDefault
  else RenderOut.children

/-- One render pass through the boundary under the React error-boundary
protocol: if rendering the children raised an error, React feeds it to
getDerivedStateFromError and renders the boundary with the new state;
otherwise the children output stands. The result type carries no error
case, so nothing re-raises past the boundary. -/
def boundaryStep {α : Type} (fallback : Option α)
    (childResult : Except String (RenderOut α)) : RenderOut α :=
  match childResult with
  | Except.ok out => out
  | Except.error e => sceneRender (getDerivedStateFromError e) fallback

/-! Helper lemmas, shared across the claim theorems below. -/

/-- A conditional rewrite whose guard never fires leaves a list alone. -/
theorem map_ite_eq_self {α : Type} (l : List α) (f : α → α) (p : α → Bool)
    (h : ∀ r ∈ l, p r = false) :
    (l.map fun r => if p r then f r else r) = l := by
  induction l with
  | nil => rfl
  | cons a t ih =>
    have ha := h a (by simp)
    have ht := ih fun r hr => h r (by simp [hr])
    simp [ha, ht]

/-- A filter whose predicate never fires returns the empty list. -/
theorem filter_eq_nil_of_none {α : Type} (l : List α) (p : α → Bool)
    (h : ∀ r ∈ l, p r = false) : l.filter p = [] := by
  induction l with
  | nil => rfl
  | cons a t ih =>
    have ha := h a (by simp)
    have ht := ih fun r hr => h r (by simp [hr])
    simp [List.filter, ha, ht]

/-- If a conditional rewrite changed the list, some member satisfied the
guard. -/
theorem exists_true_of_map_ite_ne {α : Type} (l : List α) (f : α → α)
    (p : α → Bool) (h : (l.map fun r => if p r then f r else r) ≠ l) :
    ∃ r ∈ l, p r = true := by
  by_contra hc
  push_neg at hc
  exact h (map_ite_eq_self l f p fun r hr =>
    Bool.eq_false_iff.mpr fun ht => hc r hr ht)

/-- An sqlUpdate whose WHERE clause matches no row returns the table
unchanged with ROW_COUNT 0. -/
theorem sqlUpdate_no_match (tbl : List SessionRow) (f : SessionRow → SessionRow)
    (p : SessionRow → Bool) (h : ∀ r ∈ tbl, p r = false) :
    sqlUpdate tbl f p = (tbl, 0) := by
  unfold sqlUpdate
  rw [map_ite_eq_self tbl f p h, filter_eq_nil_of_none tbl p h]
  rfl

/-- close_session on a table where no row passes its WHERE clause. -/
theorem close_session_of_no_match (tbl : List SessionRow) (sid : Nat)
    (secret : String) (h : ∀ r ∈ tbl, closePred sid secret r = false) :
    close_session tbl sid secret = (tbl, false) := by
  unfold close_session
  rw [sqlUpdate_no_match _ _ _ h]
  rfl

/-- reopen_session on a table where no row passes its WHERE clause. -/
theorem reopen_session_of_no_match (tbl : List SessionRow) (sid : Nat)
    (secret : String) (h : ∀ r ∈ tbl, reopenPred sid secret r = false) :
    reopen_session tbl sid secret = (tbl, false) := by
  unfold reopen_session
  rw [sqlUpdate_no_match _ _ _ h]
  rfl

/-- delete_session on a table where no row passes its WHERE clause. -/
theorem delete_session_of_no_match (tbl : List SessionRow) (sid : Nat)
    (secret : String) (now : Nat)
    (h : ∀ r ∈ tbl, deletePred sid secret r = false) :
    delete_session tbl sid secret now = (tbl, false) := by
  unfold delete_session
  rw [sqlUpdate_no_match _ _ _ h]
  rfl

/-- C1: a call to close_session, reopen_session or delete_session whose
supplied secret matches no session with the given id (in particular, a
wrong secret or an absent session) returns false and leaves the sessions
table unchanged; conversely, any change to the table by one of the three
procedures needs a row with that id whose stored admin_secret equals the
supplied secret. -/
theorem admin_procs_gated_by_secret (tbl : List SessionRow) (sid : Nat)
    (secret : String) (now : Nat) :
    ((∀ r ∈ tbl, r.id = sid → r.admin_secret ≠ secret) →
      close_session tbl sid secret = (tbl, false) ∧
      reopen_session tbl sid secret = (tbl, false) ∧
      delete_session tbl sid secret now = (tbl, false)) ∧
    ((close_session tbl sid secret).1 ≠ tbl →
      ∃ r ∈ tbl, r.id = sid ∧ r.admin_secret = secret) ∧
    ((reopen_session tbl sid secret).1 ≠ tbl →
      ∃ r ∈ tbl, r.id = sid ∧ r.admin_secret = secret) ∧
    ((delete_session tbl sid secret now).1 ≠ tbl →
      ∃ r ∈ tbl, r.id = sid ∧ r.admin_secret = secret) := by
  refine ⟨fun h => ?_, fun h => ?_, fun h => ?_, fun h => ?_⟩
  · have hc : ∀ r ∈ tbl, closePred sid secret r = false := by
      intro r hr
      simp only [closePred, decide_eq_false_iff_not]
      rintro ⟨h1, h2, -, -⟩
      exact h r hr h1 h2
    have hrp : ∀ r ∈ tbl, reopenPred sid secret r = false := by
      intro r hr
      simp only [reopenPred, decide_eq_false_iff_not]
      rintro ⟨h1, h2, -, -⟩
      exact h r hr h1 h2
    have hd : ∀ r ∈ tbl, deletePred sid secret r = false := by
      intro r hr
      simp only [deletePred, decide_eq_false_iff_not]
      rintro ⟨h1, h2, -⟩
      exact h r hr h1 h2
    exact ⟨close_session_of_no_match tbl sid secret hc,
      reopen_session_of_no_match tbl sid secret hrp,
      delete_session_of_no_match tbl sid secret now hd⟩
  · obtain ⟨r, hr, hp⟩ := exists_true_of_map_ite_ne tbl _ _ h
    simp only [closePred, decide_eq_true_eq] at hp
    exact ⟨r, hr, hp.1, hp.2.1⟩
  · obtain ⟨r, hr, hp⟩ := exists_true_of_map_ite_ne tbl _ _ h
    simp only [reopenPred, decide_eq_true_eq] at hp
    exact ⟨r, hr, hp.1, hp.2.1⟩
  · obtain ⟨r, hr, hp⟩ := exists_true_of_map_ite_ne tbl _ _ h
    simp only [deletePred, decide_eq_true_eq] at hp
    exact ⟨r, hr, hp.1, hp.2.1⟩

/-- An open session row with id 1 and secret s3cret, used as concrete
witness input. -/
def sessionRow1 : SessionRow :=
  { id := 1, title := none, mode := DbMode.INVITE, price_wurst := none,
    price_pretzel := none, status := SessionStatus.OPEN,
    admin_secret := "s3cret", deleted_at := none }

/-- Concrete witness for C1: one open session with id 1 and secret s3cret,
called with the wrong secret. -/
theorem admin_procs_gated_by_secret_witness :
    (∀ r ∈ [sessionRow1], r.id = 1 → r.admin_secret ≠ "wrong") ∧
    close_session [sessionRow1] 1 "wrong" = ([sessionRow1], false) ∧
    reopen_session [sessionRow1] 1 "wrong" = ([sessionRow1], false) ∧
    delete_session [sessionRow1] 1 "wrong" 0 = ([sessionRow1], false) := by
  refine ⟨by decide, ?_⟩
  exact (admin_procs_gated_by_secret [sessionRow1] 1 "wrong" 0).1 (by decide)

/-- C5: once delete_session has returned true on a table with unique
session ids, the deleted state absorbs: every later close_session,
reopen_session or delete_session call on that session id returns false and
leaves the table unchanged, whatever secret is supplied, and the three
entry row-level-security policies all evaluate to false for that session,
so no insert, update or delete of its entries is permitted. -/
theorem deleted_session_absorbing (tbl : List SessionRow) (sid : Nat)
    (secret : String) (now : Nat)
    (hnodup : (tbl.map SessionRow.id).Nodup)
    (hdel : (delete_session tbl sid secret now).2 = true) :
    ∀ secret2 now2,
      close_session (delete_session tbl sid secret now).1 sid secret2 =
        ((delete_session tbl sid secret now).1, false) ∧
      reopen_session (delete_session tbl sid secret now).1 sid secret2 =
        ((delete_session tbl sid secret now).1, false) ∧
      delete_session (delete_session tbl sid secret now).1 sid secret2 now2 =
        ((delete_session tbl sid secret now).1, false) ∧
      entries_insert_open_session (delete_session tbl sid secret now).1 sid = false ∧
      entries_update_open_session (delete_session tbl sid secret now).1 sid = false ∧
      entries_delete_open_session (delete_session tbl sid secret now).1 sid = false := by
  intro secret2 now2
  -- the successful delete found a matching, not yet deleted row
  have hex : ∃ r ∈ tbl, deletePred sid secret r = true := by
    have h2 : (delete_session tbl sid secret now).2 =
        decide (0 < (tbl.filter (deletePred sid secret)).length) := rfl
    rw [h2, decide_eq_true_eq] at hdel
    obtain ⟨r, hr⟩ := List.exists_mem_of_length_pos hdel
    exact ⟨r, (List.mem_filter.mp hr).1, (List.mem_filter.mp hr).2⟩
  obtain ⟨rw0, hrw0, hprw0⟩ := hex
  simp only [deletePred, decide_eq_true_eq] at hprw0
  -- in the updated table, every row carrying the session id is deleted
  have key : ∀ r2 ∈ (delete_session tbl sid secret now).1,
      r2.id = sid → r2.deleted_at = some now := by
    intro r2 hr2 hid
    have hr2m : r2 ∈ tbl.map fun r =>
        if deletePred sid secret r then { r with deleted_at := some now }
        else r := hr2
    obtain ⟨r, hr, hfr⟩ := List.mem_map.mp hr2m
    by_cases hp : deletePred sid secret r = true
    · simp only [hp, if_true] at hfr
      rw [← hfr]
    · have hp2 : deletePred sid secret r = false := Bool.eq_false_iff.mpr hp
      simp only [hp2, Bool.false_eq_true, if_false] at hfr
      subst hfr
      exfalso
      have hrid : r.id = rw0.id := by rw [hid, hprw0.1]
      have : r = rw0 :=
        List.inj_on_of_nodup_map hnodup hr hrw0 hrid
      subst this
      exact hp (by simp only [deletePred, decide_eq_true_eq]; exact ⟨hid, hprw0.2⟩)
  -- hence none of the WHERE clauses can match again
  have hc : ∀ r2 ∈ (delete_session tbl sid secret now).1,
      closePred sid secret2 r2 = false := by
    intro r2 hr2
    simp only [closePred, decide_eq_false_iff_not]
    rintro ⟨h1, -, h3, -⟩
    rw [key r2 hr2 h1] at h3
    exact Option.noConfusion h3
  have hrp : ∀ r2 ∈ (delete_session tbl sid secret now).1,
      reopenPred sid secret2 r2 = false := by
    intro r2 hr2
    simp only [reopenPred, decide_eq_false_iff_not]
    rintro ⟨h1, -, h3, -⟩
    rw [key r2 hr2 h1] at h3
    exact Option.noConfusion h3
  have hd : ∀ r2 ∈ (delete_session tbl sid secret now).1,
      deletePred sid secret2 r2 = false := by
    intro r2 hr2
    simp only [deletePred, decide_eq_false_iff_not]
    rintro ⟨h1, -, h3⟩
    rw [key r2 hr2 h1] at h3
    exact Option.noConfusion h3
  have hpol : ∀ r2 ∈ (delete_session tbl sid secret now).1,
      ¬(r2.id = sid ∧ r2.status = SessionStatus.OPEN ∧ r2.deleted_at = none) := by
    rintro r2 hr2 ⟨h1, -, h3⟩
    rw [key r2 hr2 h1] at h3
    exact Option.noConfusion h3
  refine ⟨close_session_of_no_match _ sid secret2 hc,
    reopen_session_of_no_match _ sid secret2 hrp,
    delete_session_of_no_match _ sid secret2 now2 hd, ?_, ?_, ?_⟩
  · unfold entries_insert_open_session
    rw [List.any_eq_false]
    intro r2 hr2
    simpa using hpol r2 hr2
  · unfold entries_update_open_session
    rw [List.any_eq_false]
    intro r2 hr2
    simpa using hpol r2 hr2
  · unfold entries_delete_open_session
    rw [List.any_eq_false]
    intro r2 hr2
    simpa using hpol r2 hr2

/-- Concrete witness for C5: deleting the open session with the right
secret succeeds, after which every administrative call fails and every
entry policy denies. -/
theorem deleted_session_absorbing_witness :
    ([sessionRow1].map SessionRow.id).Nodup ∧
    (delete_session [sessionRow1] 1 "s3cret" 7).2 = true ∧
    (close_session (delete_session [sessionRow1] 1 "s3cret" 7).1 1 "s3cret" =
        ((delete_session [sessionRow1] 1 "s3cret" 7).1, false) ∧
      reopen_session (delete_session [sessionRow1] 1 "s3cret" 7).1 1 "s3cret" =
        ((delete_session [sessionRow1] 1 "s3cret" 7).1, false) ∧
      delete_session (delete_session [sessionRow1] 1 "s3cret" 7).1 1 "s3cret" 9 =
        ((delete_session [sessionRow1] 1 "s3cret" 7).1, false) ∧
      entries_insert_open_session (delete_session [sessionRow1] 1 "s3cret" 7).1 1 = false ∧
      entries_update_open_session (delete_session [sessionRow1] 1 "s3cret" 7).1 1 = false ∧
      entries_delete_open_session (delete_session [sessionRow1] 1 "s3cret" 7).1 1 = false) :=
  ⟨by decide, by decide,
    deleted_session_absorbing [sessionRow1] 1 "s3cret" 7 (by decide) (by decide)
      "s3cret" 9⟩

/-- jsOr0 is the identity on Int. -/
theorem jsOr0_eq (n : Int) : jsOr0 n = n := by
  unfold jsOr0
  split <;> omega

/-- jsOr0Q is the identity on ℚ. -/
theorem jsOr0Q_eq (q : ℚ) : jsOr0Q q = q := by
  unfold jsOr0Q
  split <;> simp_all

/-- C2: all counter operations keep both counters non-negative (the
invariant the CHECK constraints of einstand_entries state); the two
decrement handlers clamp at 0 (the UI layer one via Math.max, the session
page one by refusing the update); reset zeroes both counters; and the
increment handlers add exactly 1. -/
theorem counters_stay_nonneg :
    (∀ (cs : List Colleague) (i : String),
      (∀ c ∈ cs, 0 ≤ c.count ∧ 0 ≤ c.brezelCount) →
        (∀ c ∈ handleDecrementWurst cs i, 0 ≤ c.count ∧ 0 ≤ c.brezelCount) ∧
        (∀ c ∈ handleDecrementBrezel cs i, 0 ≤ c.count ∧ 0 ≤ c.brezelCount) ∧
        (∀ c ∈ handleReset cs i, 0 ≤ c.count ∧ 0 ≤ c.brezelCount)) ∧
    (∀ s : AppState,
      (∀ c ∈ s.colleagues, 0 ≤ c.count ∧ 0 ≤ c.brezelCount) →
        (∀ c ∈ (handleDipComplete s).colleagues, 0 ≤ c.count ∧ 0 ≤ c.brezelCount) ∧
        (∀ c ∈ (handleBrezelComplete s).colleagues, 0 ≤ c.count ∧ 0 ≤ c.brezelCount) ∧
        (∀ c ∈ (handleResetAll s).colleagues, 0 ≤ c.count ∧ 0 ≤ c.brezelCount)) ∧
    (∀ (es : List Entry) (i : String),
      (∀ e ∈ es, 0 ≤ e.wurst_count ∧ 0 ≤ e.pretzel_count) →
        (∀ e ∈ handleDecrementWurstDb es i, 0 ≤ e.wurst_count ∧ 0 ≤ e.pretzel_count) ∧
        (∀ e ∈ handleDecrementBrezelDb es i, 0 ≤ e.wurst_count ∧ 0 ≤ e.pretzel_count) ∧
        (∀ e ∈ handleDipCompleteDb es i, 0 ≤ e.wurst_count ∧ 0 ≤ e.pretzel_count) ∧
        (∀ e ∈ handleBrezelCompleteDb es i, 0 ≤ e.wurst_count ∧ 0 ≤ e.pretzel_count) ∧
        (∀ e ∈ handleResetDb es i, 0 ≤ e.wurst_count ∧ 0 ≤ e.pretzel_count)) ∧
    (∀ (cs : List Colleague) (i : String) (k : Nat) (h1 : k < cs.length)
        (h2 : k < (handleDecrementWurst cs i).length),
      cs[k].count = 0 → (handleDecrementWurst cs i)[k].count = 0) ∧
    (∀ (cs : List Colleague) (i : String) (k : Nat) (h1 : k < cs.length)
        (h2 : k < (handleDecrementBrezel cs i).length),
      cs[k].brezelCount = 0 → (handleDecrementBrezel cs i)[k].brezelCount = 0) ∧
    (∀ (es : List Entry) (i : String),
      (∀ e ∈ es, e.id = i → e.wurst_count ≤ 0) →
        handleDecrementWurstDb es i = es) ∧
    (∀ (es : List Entry) (i : String),
      (∀ e ∈ es, e.id = i → e.pretzel_count ≤ 0) →
        handleDecrementBrezelDb es i = es) ∧
    (∀ (cs : List Colleague) (i : String) (k : Nat) (h1 : k < cs.length)
        (h2 : k < (handleReset cs i).length),
      cs[k].id = i →
        (handleReset cs i)[k].count = 0 ∧ (handleReset cs i)[k].brezelCount = 0) ∧
    (∀ (s : AppState) (i : String) (k : Nat) (h1 : k < s.colleagues.length)
        (h2 : k < (handleDipComplete s).colleagues.length),
      s.activeColleagueId = some i → i ≠ "" →
        s.colleagues[k].id = i →
        (handleDipComplete s).colleagues[k].count = s.colleagues[k].count + 1) ∧
    (∀ (s : AppState) (i : String) (k : Nat) (h1 : k < s.colleagues.length)
        (h2 : k < (handleBrezelComplete s).colleagues.length),
      s.activeColleagueId = some i → i ≠ "" →
        s.colleagues[k].id = i →
        (handleBrezelComplete s).colleagues[k].brezelCount =
          s.colleagues[k].brezelCount + 1) := by
  refine ⟨?_, ?_, ?_, ?_, ?_, ?_, ?_, ?_, ?_, ?_⟩
  · intro cs i h
    refine ⟨?_, ?_, ?_⟩
    · intro c hc
      simp only [handleDecrementWurst, List.mem_map] at hc
      obtain ⟨c0, hc0, hfc⟩ := hc
      have hv := h c0 hc0
      subst hfc
      split
      · exact ⟨le_max_left 0 _, hv.2⟩
      · exact hv
    · intro c hc
      simp only [handleDecrementBrezel, List.mem_map] at hc
      obtain ⟨c0, hc0, hfc⟩ := hc
      have hv := h c0 hc0
      subst hfc
      split
      · exact ⟨hv.1, le_max_left 0 _⟩
      · exact hv
    · intro c hc
      simp only [handleReset, List.mem_map] at hc
      obtain ⟨c0, hc0, hfc⟩ := hc
      subst hfc
      split
      · exact ⟨le_refl 0, le_refl 0⟩
      · exact h c0 hc0
  · intro s h
    refine ⟨?_, ?_, ?_⟩
    · intro c hc
      unfold handleDipComplete at hc
      rcases hs : s.activeColleagueId with - | i
      · rw [hs] at hc
        dsimp only at hc
        exact h c hc
      · rw [hs] at hc
        dsimp only at hc
        by_cases hi : i = ""
        · rw [if_pos hi] at hc
          exact h c hc
        · rw [if_neg hi] at hc
          simp only [List.mem_map] at hc
          obtain ⟨c0, hc0, hfc⟩ := hc
          have hv := h c0 hc0
          subst hfc
          split
          · exact ⟨show (0 : Int) ≤ c0.count + 1 by omega, hv.2⟩
          · exact hv
    · intro c hc
      unfold handleBrezelComplete at hc
      rcases hs : s.activeColleagueId with - | i
      · rw [hs] at hc
        dsimp only at hc
        exact h c hc
      · rw [hs] at hc
        dsimp only at hc
        by_cases hi : i = ""
        · rw [if_pos hi] at hc
          exact h c hc
        · rw [if_neg hi] at hc
          simp only [List.mem_map] at hc
          obtain ⟨c0, hc0, hfc⟩ := hc
          have hv := h c0 hc0
          subst hfc
          split
          · refine ⟨hv.1, ?_⟩
            show 0 ≤ jsOr0 c0.brezelCount + 1
            rw [jsOr0_eq]
            omega
          · exact hv
    · intro c hc
      unfold handleResetAll at hc
      simp only [List.mem_map] at hc
      obtain ⟨c0, hc0, hfc⟩ := hc
      subst hfc
      simp
  · intro es i h
    refine ⟨?_, ?_, ?_, ?_, ?_⟩
    · intro e he
      unfold handleDecrementWurstDb at he
      rcases hf : es.find? (fun e => decide (e.id = i)) with - | entry
      · rw [hf] at he
        exact h e he
      · rw [hf] at he
        dsimp only at he
        have hent : entry ∈ es := List.mem_of_find?_eq_some hf
        by_cases hle : entry.wurst_count ≤ 0
        · rw [if_pos hle] at he
          exact h e he
        · rw [if_neg hle] at he
          simp only [List.mem_map] at he
          obtain ⟨e0, he0, hfe⟩ := he
          have hv := h e0 he0
          subst hfe
          split
          · exact ⟨show (0 : Int) ≤ entry.wurst_count - 1 by omega, hv.2⟩
          · exact hv
    · intro e he
      unfold handleDecrementBrezelDb at he
      rcases hf : es.find? (fun e => decide (e.id = i)) with - | entry
      · rw [hf] at he
        exact h e he
      · rw [hf] at he
        dsimp only at he
        have hent : entry ∈ es := List.mem_of_find?_eq_some hf
        by_cases hle : entry.pretzel_count ≤ 0
        · rw [if_pos hle] at he
          exact h e he
        · rw [if_neg hle] at he
          simp only [List.mem_map] at he
          obtain ⟨e0, he0, hfe⟩ := he
          have hv := h e0 he0
          subst hfe
          split
          · exact ⟨hv.1, show (0 : Int) ≤ entry.pretzel_count - 1 by omega⟩
          · exact hv
    · intro e he
      unfold handleDipCompleteDb at he
      rcases hf : es.find? (fun e => decide (e.id = i)) with - | entry
      · rw [hf] at he
        exact h e he
      · rw [hf] at he
        dsimp only at he
        have hent : entry ∈ es := List.mem_of_find?_eq_some hf
        have hentv := h entry hent
        simp only [List.mem_map] at he
        obtain ⟨e0, he0, hfe⟩ := he
        have hv := h e0 he0
        subst hfe
        split
        · exact ⟨show (0 : Int) ≤ entry.wurst_count + 1 by omega, hv.2⟩
        · exact hv
    · intro e he
      unfold handleBrezelCompleteDb at he
      rcases hf : es.find? (fun e => decide (e.id = i)) with - | entry
      · rw [hf] at he
        exact h e he
      · rw [hf] at he
        dsimp only at he
        have hent : entry ∈ es := List.mem_of_find?_eq_some hf
        have hentv := h entry hent
        simp only [List.mem_map] at he
        obtain ⟨e0, he0, hfe⟩ := he
        have hv := h e0 he0
        subst hfe
        split
        · exact ⟨hv.1, show (0 : Int) ≤ entry.pretzel_count + 1 by omega⟩
        · exact hv
    · intro e he
      unfold handleResetDb at he
      rcases hf : es.find? (fun e => decide (e.id = i)) with - | entry
      · rw [hf] at he
        exact h e he
      · rw [hf] at he
        dsimp only at he
        simp only [List.mem_map] at he
        obtain ⟨e0, he0, hfe⟩ := he
        have hv := h e0 he0
        subst hfe
        split
        · exact ⟨le_refl 0, le_refl 0⟩
        · exact hv
  · intro cs i k h1 h2 hz
    simp only [handleDecrementWurst, List.getElem_map]
    split <;> simp_all
  · intro cs i k h1 h2 hz
    simp only [handleDecrementBrezel, List.getElem_map]
    split <;> simp_all [jsOr0_eq]
  · intro es i h
    unfold handleDecrementWurstDb
    rcases hf : es.find? (fun e => decide (e.id = i)) with - | entry
    · rw [hf]
    · rw [hf]
      dsimp only
      have hent : entry ∈ es := List.mem_of_find?_eq_some hf
      have hp := List.find?_some hf
      simp only [decide_eq_true_eq] at hp
      rw [if_pos (h entry hent hp)]
  · intro es i h
    unfold handleDecrementBrezelDb
    rcases hf : es.find? (fun e => decide (e.id = i)) with - | entry
    · rw [hf]
    · rw [hf]
      dsimp only
      have hent : entry ∈ es := List.mem_of_find?_eq_some hf
      have hp := List.find?_some hf
      simp only [decide_eq_true_eq] at hp
      rw [if_pos (h entry hent hp)]
  · intro cs i k h1 h2 hid
    simp only [handleReset, List.getElem_map]
    constructor <;> (split <;> simp_all)
  · intro s i k h1 h2 hs hi hid
    simp only [handleDipComplete, hs, if_neg hi, List.getElem_map, hid,
      if_true]
  · intro s i k h1 h2 hs hi hid
    simp only [handleBrezelComplete, hs, if_neg hi, List.getElem_map, hid,
      if_true]
    rw [jsOr0_eq]

/-- A colleague with both counters at 0, used as concrete witness input. -/
def colleagueA0 : Colleague :=
  { id := "a", name := "Anna", count := 0, brezelCount := 0 }

/-- An entry with both counters at 0, used as concrete witness input. -/
def entryE0 : Entry :=
  { id := "e1", session_id := 1, display_name := "Ed", wurst_count := 0,
    pretzel_count := 0 }

/-- Concrete witness for C2: with one colleague and one entry both at 0,
the invariant holds before and after a decrement, and the session-page
decrement leaves the zero entry untouched. -/
theorem counters_stay_nonneg_witness :
    (∀ c ∈ [colleagueA0], 0 ≤ c.count ∧ 0 ≤ c.brezelCount) ∧
    (∀ c ∈ handleDecrementWurst [colleagueA0] "a",
      0 ≤ c.count ∧ 0 ≤ c.brezelCount) ∧
    (∀ e ∈ [entryE0], e.id = "e1" → e.wurst_count ≤ 0) ∧
    handleDecrementWurstDb [entryE0] "e1" = [entryE0] := by
  refine ⟨by decide, ?_, by decide, ?_⟩
  · exact ((counters_stay_nonneg.1 [colleagueA0] "a") (by decide)).1
  · exact counters_stay_nonneg.2.2.2.2.2.1 [entryE0] "e1" (by decide)

/-- C6: completing a dip with a selected active colleague increments that
colleague record's sausage count by exactly 1 and changes nothing else:
id, name and pretzel counter of that record, every other colleague record,
the active selection, the mode, both prices and the sort mode are all
unchanged; with no selection the state is returned as is. -/
theorem dip_complete_frame (s : AppState) :
    (s.activeColleagueId = none → handleDipComplete s = s) ∧
    (∀ i, s.activeColleagueId = some i → i ≠ "" →
      (handleDipComplete s).activeColleagueId = s.activeColleagueId ∧
      (handleDipComplete s).mode = s.mode ∧
      (handleDipComplete s).pricePerWurst = s.pricePerWurst ∧
      (handleDipComplete s).pricePerBrezel = s.pricePerBrezel ∧
      (handleDipComplete s).sortMode = s.sortMode ∧
      (handleDipComplete s).colleagues.length = s.colleagues.length ∧
      (∀ (k : Nat) (h1 : k < s.colleagues.length)
          (h2 : k < (handleDipComplete s).colleagues.length),
        (s.colleagues[k].id ≠ i →
          (handleDipComplete s).colleagues[k] = s.colleagues[k]) ∧
        (s.colleagues[k].id = i →
          (handleDipComplete s).colleagues[k].id = s.colleagues[k].id ∧
          (handleDipComplete s).colleagues[k].name = s.colleagues[k].name ∧
          (handleDipComplete s).colleagues[k].brezelCount =
            s.colleagues[k].brezelCount ∧
          (handleDipComplete s).colleagues[k].count =
            s.colleagues[k].count + 1))) := by
  constructor
  · intro h
    unfold handleDipComplete
    rw [h]
  · intro i hs hi
    have hd : handleDipComplete s =
        { s with colleagues := s.colleagues.map fun c =>
          if c.id = i then { c with count := c.count + 1 } else c } := by
      unfold handleDipComplete
      rw [hs]
      dsimp only
      rw [if_neg hi]
    refine ⟨by simp only [hd], by simp only [hd], by simp only [hd],
      by simp only [hd], by simp only [hd],
      by simp only [hd, List.length_map], ?_⟩
    intro k h1 h2
    constructor
    · intro hne
      simp [hd, List.getElem_map, hne]
    · intro heq
      simp [hd, List.getElem_map, heq]

/-- A one-colleague app state with an active selection, used as concrete
witness input. -/
def appState0 : AppState :=
  { colleagues := [{ id := "a", name := "Anna", count := 2, brezelCount := 3 }]
    activeColleagueId := some "a"
    mode := AppMode.invite
    pricePerWurst := 0
    pricePerBrezel := 0
    sortMode := SortMode.alphabetical }

/-- Concrete witness for C6: on a state with active colleague a, the frame
facts hold. -/
theorem dip_complete_frame_witness :
    appState0.activeColleagueId = some "a" ∧
    (handleDipComplete appState0).activeColleagueId =
      appState0.activeColleagueId ∧
    (handleDipComplete appState0).mode = appState0.mode ∧
    (handleDipComplete appState0).colleagues.length =
      appState0.colleagues.length :=
  ⟨rfl, ((dip_complete_frame appState0).2 "a" rfl (by decide)).1,
    ((dip_complete_frame appState0).2 "a" rfl (by decide)).2.1,
    ((dip_complete_frame appState0).2 "a" rfl (by decide)).2.2.2.2.2.1⟩

/-- C9: for a non-negative total sausage count, the mustard need is
ceil(totalWurst / 2) * 45 grams, jsCeilDiv really computes that ceiling
(characterised arithmetically), the 200ml jar count is the ceiling of the
remainder over 200 when a remainder is left and 0 otherwise, and the
chosen jars always cover the need:
jars335 * 335 + jars200 * 200 is at least the grams needed. -/
theorem senf_jars_cover_need (tw : Int) (h : 0 ≤ tw) :
    senfGramsNeeded tw = jsCeilDiv tw 2 * 45 ∧
    (2 * jsCeilDiv tw 2 - 1 ≤ tw ∧ tw ≤ 2 * jsCeilDiv tw 2) ∧
    ((senfGramsNeeded tw).tmod 335 = 0 → (senfJars tw).2 = 0) ∧
    (0 < (senfGramsNeeded tw).tmod 335 →
      200 * (senfJars tw).2 - 199 ≤ (senfGramsNeeded tw).tmod 335 ∧
      (senfGramsNeeded tw).tmod 335 ≤ 200 * (senfJars tw).2) ∧
    senfGramsNeeded tw ≤ (senfJars tw).1 * 335 + (senfJars tw).2 * 200 := by
  have hceil : jsCeilDiv tw 2 = -(-tw / 2) := by
    unfold jsCeilDiv
    rw [Int.fdiv_eq_ediv _ (by norm_num)]
  have hg0 : 0 ≤ senfGramsNeeded tw := by
    have : senfGramsNeeded tw = jsCeilDiv tw 2 * 45 := rfl
    rw [this, hceil]
    have h2 : 0 ≤ -(-tw / 2) := by omega
    positivity
  have hj335 : (senfJars tw).1 = senfGramsNeeded tw / 335 := by
    have : (senfJars tw).1 = jsFloorDiv (senfGramsNeeded tw) 335 := rfl
    rw [this]
    unfold jsFloorDiv
    exact Int.fdiv_eq_ediv _ (by norm_num)
  have hj200 : (senfJars tw).2 =
      if 0 < (senfGramsNeeded tw).tmod 335 then
        jsCeilDiv ((senfGramsNeeded tw).tmod 335) 200
      else 0 := rfl
  have hrm : (senfGramsNeeded tw).tmod 335 = senfGramsNeeded tw % 335 :=
    Int.tmod_eq_emod hg0 (by norm_num)
  refine ⟨rfl, ?_, ?_, ?_, ?_⟩
  · rw [hceil]
    omega
  · intro hz
    rw [hj200, if_neg (by omega)]
  · intro hpos
    rw [hj200, if_pos hpos]
    unfold jsCeilDiv
    rw [Int.fdiv_eq_ediv _ (by norm_num)]
    omega
  · by_cases hrp : 0 < (senfGramsNeeded tw).tmod 335
    · rw [hj335, hj200, if_pos hrp]
      unfold jsCeilDiv
      rw [Int.fdiv_eq_ediv _ (by norm_num)]
      rw [hrm] at hrp ⊢
      omega
    · rw [hj335, hj200, if_neg hrp]
      rw [hrm] at hrp
      omega

/-- Concrete witness for C9: one sausage needs 45 grams and one 200ml
jar, which covers the need. -/
theorem senf_jars_cover_need_witness :
    (0 : Int) ≤ 1 ∧
    senfGramsNeeded 1 ≤ (senfJars 1).1 * 335 + (senfJars 1).2 * 200 :=
  ⟨by decide, (senf_jars_cover_need 1 (by decide)).2.2.2.2⟩

/-- Folding addition of a projection over a list equals the start value
plus the sum of the mapped list. -/
theorem foldl_add_map {α : Type} (l : List α) (f : α → Int) (a : Int) :
    l.foldl (fun sum x => sum + f x) a = a + (l.map f).sum := by
  induction l generalizing a with
  | nil => simp
  | cons x t ih => simp [ih, add_assoc]

/-- totalWurst is the sum of the count fields. -/
theorem totalWurst_eq_sum (cs : List Colleague) :
    totalWurst cs = (cs.map Colleague.count).sum := by
  unfold totalWurst
  rw [foldl_add_map]
  simp

/-- totalBrezeln is the sum of the brezelCount fields. -/
theorem totalBrezeln_eq_sum (cs : List Colleague) :
    totalBrezeln cs = (cs.map Colleague.brezelCount).sum := by
  unfold totalBrezeln
  simp only [jsOr0_eq]
  rw [foldl_add_map]
  simp

/-- The count-times-price totals equal the per-colleague cost sum. -/
theorem counts_dot_prices (cs : List Colleague) (pW pB : ℚ) :
    (totalWurst cs : ℚ) * pW + (totalBrezeln cs : ℚ) * pB =
      specSplitTotalColleagues cs pW pB := by
  rw [totalWurst_eq_sum, totalBrezeln_eq_sum]
  unfold specSplitTotalColleagues
  induction cs with
  | nil => simp
  | cons c t ih =>
    simp only [List.map_cons, List.sum_cons]
    push_cast
    push_cast at ih
    linear_combination ih

/-- The count-times-price totals equal the per-entry cost sum. -/
theorem counts_dot_prices_entries (es : List Entry) (pW pB : ℚ) :
    ((es.foldl (fun sum e => sum + e.wurst_count) 0 : Int) : ℚ) * pW +
      ((es.foldl (fun sum e => sum + e.pretzel_count) 0 : Int) : ℚ) * pB =
      specSplitTotalEntries es pW pB := by
  rw [foldl_add_map, foldl_add_map]
  unfold specSplitTotalEntries
  induction es with
  | nil => simp
  | cons e t ih =>
    simp only [List.map_cons, List.sum_cons]
    push_cast
    push_cast at ih
    linear_combination ih

/-- A colleague with one sausage and no pretzel, used as concrete
counterexample input. -/
def colleagueOneWurst : Colleague :=
  { id := "a", name := "Anna", count := 1, brezelCount := 0 }

/-- C3 counterexample: in the part_000 Summary, one sausage at price 0
yields a split-mode total of 2 euros (one 200ml mustard jar), while the
per-item count-times-price sum is 0 — so the split-mode total there is
not computed from per-item prices and counts alone. -/
theorem split_total_per_item_counterexample :
    summaryTotalPricePart000 [colleagueOneWurst] AppMode.split 0 0 = 2 ∧
    specSplitTotalColleagues [colleagueOneWurst] 0 0 = 0 ∧
    summaryTotalPricePart000 [colleagueOneWurst] AppMode.split 0 0 ≠
      specSplitTotalColleagues [colleagueOneWurst] 0 0 := by
  have htw : totalWurst [colleagueOneWurst] = 1 := by decide
  have htb : totalBrezeln [colleagueOneWurst] = 0 := by decide
  have hj : senfJars 1 = (0, 1) := by decide
  have hsenf : senfPrice 1 = 2 := by
    unfold senfPrice
    rw [hj]
    norm_num
  have h1 : summaryTotalPricePart000 [colleagueOneWurst] AppMode.split 0 0 = 2 := by
    unfold summaryTotalPricePart000
    rw [htw, htb, if_pos rfl, hsenf]
    norm_num [jsOr0Q]
  have h2 : specSplitTotalColleagues [colleagueOneWurst] 0 0 = 0 := by
    simp [specSplitTotalColleagues]
  refine ⟨h1, h2, ?_⟩
  rw [h1, h2]
  norm_num

/-- C3 amended: the session-page totals and the format.ts Summary compute
the split-mode total as the per-item count-times-price sum; the part_000
Summary additionally adds the mustard jar price senfPrice to the
split-mode total. -/
theorem split_total_amended :
    (∀ (es : List Entry) (pW pB : Option ℚ),
      (totalsDb es DbMode.SPLIT pW pB).totalCost =
        specSplitTotalEntries es (pW.getD 0) (pB.getD 0)) ∧
    (∀ (cs : List Colleague) (pW pB : ℚ),
      summaryTotalPrice cs pW pB = specSplitTotalColleagues cs pW pB) ∧
    (∀ (cs : List Colleague) (pW pB : ℚ),
      summaryTotalPricePart000 cs AppMode.split pW pB =
        specSplitTotalColleagues cs pW pB + senfPrice (totalWurst cs)) := by
  refine ⟨?_, ?_, ?_⟩
  · intro es pW pB
    simp only [totalsDb, if_pos rfl]
    exact counts_dot_prices_entries es (pW.getD 0) (pB.getD 0)
  · intro cs pW pB
    unfold summaryTotalPrice
    rw [jsOr0Q_eq, jsOr0Q_eq]
    exact counts_dot_prices cs pW pB
  · intro cs pW pB
    unfold summaryTotalPricePart000
    rw [jsOr0Q_eq, jsOr0Q_eq, if_pos rfl, counts_dot_prices]

/-- C4: in invite mode no price is charged: the session-page totalCost is
0 whatever the stored prices are, and the rendered Summary shows no cost
figure, only the two counters. -/
theorem invite_mode_no_charge :
    (∀ (es : List Entry) (pW pB : Option ℚ),
      (totalsDb es DbMode.INVITE pW pB).totalCost = 0) ∧
    (∀ (cs : List Colleague) (pW pB : ℚ),
      (renderSummary cs AppMode.invite pW pB).shownCost = none ∧
      (renderSummary cs AppMode.invite pW pB).shownWurst = totalWurst cs ∧
      (renderSummary cs AppMode.invite pW pB).shownBrezeln = totalBrezeln cs) := by
  constructor
  · intro es pW pB
    simp [totalsDb]
  · intro cs pW pB
    refine ⟨?_, rfl, rfl⟩
    simp [renderSummary]

/-- C7: the local-storage persistence round-trips the app state: writing
all fields and merging the parsed object over the initial value gives the
original state back; with nothing stored the initial value is used; and
each field missing from the stored object is filled from the initial
value. -/
theorem local_storage_round_trip (init s : AppState) (p : StoredAppState) :
    loadState init (some (stringifyState s)) = s ∧
    loadState init none = init ∧
    (p.colleagues = none →
      (spreadMerge init p).colleagues = init.colleagues) ∧
    (p.activeColleagueId = none →
      (spreadMerge init p).activeColleagueId = init.activeColleagueId) ∧
    (p.mode = none → (spreadMerge init p).mode = init.mode) ∧
    (p.pricePerWurst = none →
      (spreadMerge init p).pricePerWurst = init.pricePerWurst) ∧
    (p.pricePerBrezel = none →
      (spreadMerge init p).pricePerBrezel = init.pricePerBrezel) ∧
    (p.sortMode = none → (spreadMerge init p).sortMode = init.sortMode) := by
  refine ⟨rfl, rfl, ?_, ?_, ?_, ?_, ?_, ?_⟩ <;>
    · intro h
      simp [spreadMerge, h]

/-- A stored object with every field missing, used as concrete witness
input. -/
def storedEmpty : StoredAppState :=
  { colleagues := none, activeColleagueId := none, mode := none,
    pricePerWurst := none, pricePerBrezel := none, sortMode := none }

/-- Concrete witness for C7: round trip on a concrete state, and the
sortMode of an empty stored object falls back to the initial value. -/
theorem local_storage_round_trip_witness :
    loadState appState0 (some (stringifyState appState0)) = appState0 ∧
    storedEmpty.sortMode = none ∧
    (spreadMerge appState0 storedEmpty).sortMode = appState0.sortMode :=
  ⟨(local_storage_round_trip appState0 appState0 storedEmpty).1, rfl,
    (local_storage_round_trip appState0 appState0 storedEmpty).2.2.2.2.2.2.2
      rfl⟩

/-- replaceFirstCommaAux leaves a comma-free list alone. -/
theorem replaceFirstCommaAux_no_comma (l : List Char) (h : ',' ∉ l) :
    replaceFirstCommaAux l = l := by
  induction l with
  | nil => rfl
  | cons c t ih =>
    have hc : ¬c = ',' := fun hc => h (by simp [hc])
    simp only [replaceFirstCommaAux, if_neg hc]
    rw [ih fun ht => h (by simp [ht])]

/-- replaceFirstCommaAux rewrites exactly the first comma to a dot. -/
theorem replaceFirstCommaAux_split (l1 l2 : List Char) (h : ',' ∉ l1) :
    replaceFirstCommaAux (l1 ++ ',' :: l2) = l1 ++ '.' :: l2 := by
  induction l1 with
  | nil => rfl
  | cons c t ih =>
    have hc : ¬c = ',' := fun hc => h (by simp [hc])
    simp only [List.cons_append, replaceFirstCommaAux, if_neg hc]
    exact congrArg (List.cons c) (ih fun ht => h (by simp [ht]))

/-- C8: parseGermanNumber is total and never NaN: it rewrites only the
first comma of its input to a dot (later commas stay), then parses; a
parse that yields NaN (none in the model) becomes 0 and any other parse
result is returned as is. -/
theorem parse_german_number_total (s : String) :
    (jsParseFloat (replaceFirstComma s) = none → parseGermanNumber s = 0) ∧
    (∀ q : ℚ, jsParseFloat (replaceFirstComma s) = some q →
      parseGermanNumber s = q) ∧
    ((',' ∉ s.data) → replaceFirstComma s = s) ∧
    (∀ l1 l2 : List Char, s.data = l1 ++ ',' :: l2 → ',' ∉ l1 →
      (replaceFirstComma s).data = l1 ++ '.' :: l2) := by
  refine ⟨?_, ?_, ?_, ?_⟩
  · intro h
    unfold parseGermanNumber
    rw [h]
  · intro q h
    unfold parseGermanNumber
    rw [h]
  · intro h
    unfold replaceFirstComma
    rw [replaceFirstCommaAux_no_comma s.data h]
  · intro l1 l2 hs h
    show replaceFirstCommaAux s.data = l1 ++ '.' :: l2
    rw [hs]
    exact replaceFirstCommaAux_split l1 l2 h

/-- Concrete witness for C8: the German input 3,5 parses to 7/2, and the
non-numeric input abc parses to 0. -/
theorem parse_german_number_total_witness :
    jsParseFloat (replaceFirstComma "3,5") = some (7 / 2) ∧
    parseGermanNumber "3,5" = 7 / 2 ∧
    jsParseFloat (replaceFirstComma "abc") = none ∧
    parseGermanNumber "abc" = 0 := by
  have h1 : jsParseFloat (replaceFirstComma "3,5") = some (7 / 2) := by
    simp [replaceFirstComma, replaceFirstCommaAux, jsParseFloat, isWs,
      natOfDigits, tenPow, readExponent, tenPowNat]
    norm_num
  have h2 : jsParseFloat (replaceFirstComma "abc") = none := by rfl
  exact ⟨h1, (parse_german_number_total "3,5").2.1 (7 / 2) h1, h2,
    (parse_german_number_total "abc").1 h2⟩

/-- C10: every error raised while rendering the scene children is mapped
by getDerivedStateFromError to a state with hasError, and a boundary whose
state has hasError renders the supplied fallback (or the default one)
rather than the children or a re-raise; the boundary step is total, so
the error does not propagate past it. -/
theorem scene_error_boundary_catches (A : Type) (fallback : Option A)
    (child : Except String (RenderOut A)) :
    (∀ e : String, (getDerivedStateFromError e).hasError = true) ∧
    (∀ st : SceneState, st.hasError = true →
      sceneRender st fallback =
        (match fallback with
          | some f => RenderOut.fallbackCustom f
          | none => RenderOut.fallbackDefault)) ∧
    (∀ st : SceneState, st.hasError = false →
      sceneRender st fallback = RenderOut.children) ∧
    (∀ e : String, child = Except.error e →
      boundaryStep fallback child =
        sceneRender (getDerivedStateFromError e) fallback) ∧
    (∀ out : RenderOut A, child = Except.ok out →
      boundaryStep fallback child = out) := by
  refine ⟨fun e => rfl, ?_, ?_, ?_, ?_⟩
  · intro st h
    unfold sceneRender
    rw [h]
    rfl
  · intro st h
    unfold sceneRender
    rw [h]
    rfl
  · intro e he
    rw [he]
    rfl
  · intro out ho
    rw [ho]
    rfl

/-- Concrete witness for C10: a boom error with no custom fallback leads
to the default fallback UI. -/
theorem scene_error_boundary_catches_witness :
    (getDerivedStateFromError "boom").hasError = true ∧
    boundaryStep (none : Option String)
      (Except.error "boom" : Except String (RenderOut String)) =
      RenderOut.fallbackDefault := by
  have ha := (scene_error_boundary_catches String none
    (Except.error "boom")).2.2.2.1 "boom" rfl
  have hb := (scene_error_boundary_catches String none
    (Except.error "boom")).2.1 (getDerivedStateFromError "boom") rfl
  exact ⟨(scene_error_boundary_catches String none
    (Except.error "boom")).1 "boom", by rw [ha, hb]⟩

end Weisswurst
